import Mathlib

/-!
Verification development for the CDR large-dataset generator
(src/PETechTest/large-dataset-generator.py).

Modelling conventions (shallow embedding):

* The process-wide random source is made explicit: every call to
  random.random() becomes a rational parameter r with intended support
  [0, 1); every call to random.randint(a, b) becomes a natural-number
  entropy parameter u, consumed as a + u % (b + 1 - a), which is exactly
  the uniform support [a, b]; random.randrange(n) becomes u % n.
  Literal float thresholds (0.7, 0.95, 0.6, 0.2) are modelled by the
  exact rationals they denote in the source text.
* Exact probabilities over a random.random() draw are computed on finite
  uniform grids defined as k / N for k < N.  For every N divisible by 20 the
  grid assigns to each threshold event exactly its continuous uniform
  probability, because every threshold in the program is a multiple of 1/20.
* Strings are Lean strings; file size in bytes equals string length
  (every character the generator emits is ASCII, and the file is opened
  with UTF-8 encoding).
* The csv.writer of the Python standard library is modelled with its
  default excel dialect: fields containing the delimiter, the quote
  character, CR or LF are quoted with internal quotes doubled
  (QUOTE_MINIMAL), and the line terminator is "\r\n"; the file is opened
  with newline='' so that terminator reaches the file untranslated.
* I/O failure is modelled by an injection point: mkdirFails says that
  os.makedirs (which runs before the try block) raises; failAt = some 0
  says the header write raises, failAt = some (i+1) says the write of data
  row i raises.  Progress printing and the advisory current_bytes counter
  are not modelled: they affect neither the file contents nor control flow.
-/

/-- Model of random.randint(a, b): entropy u selects uniformly from the
    inclusive range [a, b]. -/
def randint (a b u : ℕ) : ℕ := a + u % (b + 1 - a)

/-- Model of generate_duration: first draw r1 against 0.7, second draw r2
    against 0.95 (only reached when r1 fails), then a uniform pick in the
    selected tier. -/
def generate_duration (r1 r2 : ℚ) (u : ℕ) : ℕ :=
  if r1 < 7/10 then randint 1 600 u
  else if r2 < 19/20 then randint 601 3600 u
  else randint 3601 7200 u

theorem randint_le (a b u : ℕ) : a ≤ randint a b u := Nat.le_add_right a _

theorem randint_le_right (a b u : ℕ) (h : a ≤ b) : randint a b u ≤ b := by
  have hpos : 0 < b + 1 - a := by omega
  have := Nat.mod_lt u hpos
  unfold randint
  omega

theorem generate_duration_short_iff (r1 r2 : ℚ) (u : ℕ) :
    generate_duration r1 r2 u ∈ Finset.Icc 1 600 ↔ r1 < 7/10 := by
  unfold generate_duration
  split_ifs with h1 h2
  · simp only [Finset.mem_Icc]
    exact iff_of_true ⟨randint_le 1 600 u, randint_le_right 1 600 u (by omega)⟩ h1
  · simp only [Finset.mem_Icc]
    have hlo := randint_le 601 3600 u
    exact iff_of_false (by omega) h1
  · simp only [Finset.mem_Icc]
    have hlo := randint_le 3601 7200 u
    exact iff_of_false (by omega) h1

theorem generate_duration_medium_iff (r1 r2 : ℚ) (u : ℕ) :
    generate_duration r1 r2 u ∈ Finset.Icc 601 3600 ↔ ¬ r1 < 7/10 ∧ r2 < 19/20 := by
  unfold generate_duration
  split_ifs with h1 h2
  · simp only [Finset.mem_Icc]
    have hhi := randint_le_right 1 600 u (by omega)
    exact iff_of_false (by omega) (by tauto)
  · simp only [Finset.mem_Icc]
    exact iff_of_true ⟨randint_le 601 3600 u, randint_le_right 601 3600 u (by omega)⟩ ⟨h1, h2⟩
  · simp only [Finset.mem_Icc]
    have hlo := randint_le 3601 7200 u
    exact iff_of_false (by omega) (by tauto)

theorem generate_duration_long_iff (r1 r2 : ℚ) (u : ℕ) :
    generate_duration r1 r2 u ∈ Finset.Icc 3601 7200 ↔ ¬ r1 < 7/10 ∧ ¬ r2 < 19/20 := by
  unfold generate_duration
  split_ifs with h1 h2
  · simp only [Finset.mem_Icc]
    have hhi := randint_le_right 1 600 u (by omega)
    exact iff_of_false (by omega) (by tauto)
  · simp only [Finset.mem_Icc]
    have hhi := randint_le_right 601 3600 u (by omega)
    exact iff_of_false (by omega) (by tauto)
  · simp only [Finset.mem_Icc]
    exact iff_of_true ⟨randint_le 3601 7200 u, randint_le_right 3601 7200 u (by omega)⟩ ⟨h1, h2⟩

/-- Number of grid points k of the uniform grid on Fin N whose value is
    below m. -/
theorem card_filter_fin_lt (N m : ℕ) :
    (Finset.univ.filter (fun k : Fin N => (k : ℕ) < m)).card = min m N := by
  have h1 : (Finset.univ.filter (fun k : Fin N => (k : ℕ) < m)).card
      = (((Finset.univ : Finset (Fin N)).map Fin.valEmbedding).filter
          (fun x => x < m)).card := by
    rw [Finset.filter_map, Finset.card_map]
    rfl
  rw [h1, Fin.map_valEmbedding_univ]
  have h2 : (Finset.Iio N).filter (fun x => x < m) = Finset.Iio (min m N) := by
    ext x
    simp only [Finset.mem_filter, Finset.mem_Iio]
    omega
  rw [h2, Nat.card_Iio]

theorem card_filter_fin_not_lt (N m : ℕ) (h : m ≤ N) :
    (Finset.univ.filter (fun k : Fin N => ¬ (k : ℕ) < m)).card = N - m := by
  rw [Finset.filter_not, Finset.card_sdiff (Finset.filter_subset _ _)]
  rw [card_filter_fin_lt, Finset.card_univ, Fintype.card_fin]
  omega

theorem grid_lt_const_iff (N k a b : ℕ) (hN : 0 < N) (hb : 0 < b) :
    ((k : ℚ) / (N : ℚ) < (a : ℚ) / (b : ℚ)) ↔ k * b < a * N := by
  rw [div_lt_div_iff₀ (by exact_mod_cast hN) (by exact_mod_cast hb)]
  exact_mod_cast Iff.rfl

/-- The uniform grid model of the two random.random() draws of
    generate_duration: pairs (k1, k2) of Fin N stand for the draws
    (k1 / N, k2 / N), and we collect the grid points whose generated
    duration lands in the inclusive tier [lo, hi]. -/
def durationGrid (N u lo hi : ℕ) : Finset (Fin N × Fin N) :=
  Finset.univ.filter
    (fun p => generate_duration ((p.1 : ℚ) / (N : ℚ)) ((p.2 : ℚ) / (N : ℚ)) u ∈ Finset.Icc lo hi)

theorem grid_lt_07 (t : ℕ) (ht : 0 < t) (k : Fin (20*t)) :
    ((k : ℚ) / ((20*t : ℕ) : ℚ) < 7/10) ↔ (k : ℕ) < 14*t := by
  have hN : (0:ℚ) < ((20*t : ℕ) : ℚ) := by
    have : 0 < 20*t := by omega
    exact_mod_cast this
  rw [div_lt_div_iff₀ hN (by norm_num : (0:ℚ) < 10)]
  have : ((k : ℚ) * 10 < 7 * ((20*t : ℕ) : ℚ)) ↔ ((k : ℕ) * 10 < 7 * (20*t)) := by
    push_cast
    exact_mod_cast Iff.rfl
  rw [this]
  omega

theorem grid_lt_095 (t : ℕ) (ht : 0 < t) (k : Fin (20*t)) :
    ((k : ℚ) / ((20*t : ℕ) : ℚ) < 19/20) ↔ (k : ℕ) < 19*t := by
  have hN : (0:ℚ) < ((20*t : ℕ) : ℚ) := by
    have : 0 < 20*t := by omega
    exact_mod_cast this
  rw [div_lt_div_iff₀ hN (by norm_num : (0:ℚ) < 20)]
  have : ((k : ℚ) * 20 < 19 * ((20*t : ℕ) : ℚ)) ↔ ((k : ℕ) * 20 < 19 * (20*t)) := by
    push_cast
    exact_mod_cast Iff.rfl
  rw [this]
  omega

theorem durationGrid_short_card (t u : ℕ) (ht : 0 < t) :
    (durationGrid (20*t) u 1 600).card = 280 * t^2 := by
  have hcongr : durationGrid (20*t) u 1 600
      = Finset.univ.filter (fun p : Fin (20*t) × Fin (20*t) => (p.1 : ℕ) < 14*t) := by
    unfold durationGrid
    apply Finset.filter_congr
    intro p _
    rw [generate_duration_short_iff]
    exact grid_lt_07 t ht p.1
  have hprod : Finset.filter (fun p : Fin (20*t) × Fin (20*t) => (p.1 : ℕ) < 14*t)
        ((Finset.univ : Finset (Fin (20*t))) ×ˢ (Finset.univ : Finset (Fin (20*t))))
      = (Finset.univ.filter (fun a : Fin (20*t) => (a : ℕ) < 14*t)) ×ˢ (Finset.univ : Finset (Fin (20*t))) :=
    Finset.filter_product_left (fun a : Fin (20*t) => (a : ℕ) < 14*t)
  rw [hcongr, ← Finset.univ_product_univ, hprod, Finset.card_product]
  rw [card_filter_fin_lt, Finset.card_univ, Fintype.card_fin]
  have hmin : min (14*t) (20*t) = 14*t := by omega
  rw [hmin]
  ring

theorem durationGrid_medium_card (t u : ℕ) (ht : 0 < t) :
    (durationGrid (20*t) u 601 3600).card = 114 * t^2 := by
  have hcongr : durationGrid (20*t) u 601 3600
      = Finset.univ.filter
          (fun p : Fin (20*t) × Fin (20*t) => ¬ (p.1 : ℕ) < 14*t ∧ (p.2 : ℕ) < 19*t) := by
    unfold durationGrid
    apply Finset.filter_congr
    intro p _
    rw [generate_duration_medium_iff, grid_lt_07 t ht p.1, grid_lt_095 t ht p.2]
  have hprod : Finset.filter (fun p : Fin (20*t) × Fin (20*t) => ¬ (p.1 : ℕ) < 14*t ∧ (p.2 : ℕ) < 19*t)
        ((Finset.univ : Finset (Fin (20*t))) ×ˢ (Finset.univ : Finset (Fin (20*t))))
      = (Finset.univ.filter (fun a : Fin (20*t) => ¬ (a : ℕ) < 14*t))
          ×ˢ (Finset.univ.filter (fun b : Fin (20*t) => (b : ℕ) < 19*t)) :=
    Finset.filter_product (fun a : Fin (20*t) => ¬ (a : ℕ) < 14*t) (fun b : Fin (20*t) => (b : ℕ) < 19*t)
  rw [hcongr, ← Finset.univ_product_univ, hprod, Finset.card_product]
  rw [card_filter_fin_not_lt _ _ (by omega), card_filter_fin_lt]
  have hmin : min (19*t) (20*t) = 19*t := by omega
  have hsub : 20*t - 14*t = 6*t := by omega
  rw [hmin, hsub]
  ring

theorem durationGrid_long_card (t u : ℕ) (ht : 0 < t) :
    (durationGrid (20*t) u 3601 7200).card = 6 * t^2 := by
  have hcongr : durationGrid (20*t) u 3601 7200
      = Finset.univ.filter
          (fun p : Fin (20*t) × Fin (20*t) => ¬ (p.1 : ℕ) < 14*t ∧ ¬ (p.2 : ℕ) < 19*t) := by
    unfold durationGrid
    apply Finset.filter_congr
    intro p _
    rw [generate_duration_long_iff, grid_lt_07 t ht p.1, grid_lt_095 t ht p.2]
  have hprod : Finset.filter (fun p : Fin (20*t) × Fin (20*t) => ¬ (p.1 : ℕ) < 14*t ∧ ¬ (p.2 : ℕ) < 19*t)
        ((Finset.univ : Finset (Fin (20*t))) ×ˢ (Finset.univ : Finset (Fin (20*t))))
      = (Finset.univ.filter (fun a : Fin (20*t) => ¬ (a : ℕ) < 14*t))
          ×ˢ (Finset.univ.filter (fun b : Fin (20*t) => ¬ (b : ℕ) < 19*t)) :=
    Finset.filter_product (fun a : Fin (20*t) => ¬ (a : ℕ) < 14*t) (fun b : Fin (20*t) => ¬ (b : ℕ) < 19*t)
  rw [hcongr, ← Finset.univ_product_univ, hprod, Finset.card_product]
  rw [card_filter_fin_not_lt _ _ (by omega), card_filter_fin_not_lt _ _ (by omega)]
  have h1 : 20*t - 14*t = 6*t := by omega
  have h2 : 20*t - 19*t = t := by omega
  rw [h1, h2]
  ring

/-- C1 (amended): the nested two-draw structure of generate_duration (first
    draw at threshold 0.7, second draw at threshold 0.95 only when not
    short) yields exactly a 70% / 28.5% / 1.5% split, i.e. probability 7/10
    of a value uniform in [1, 600], probability 57/200 of a value uniform in
    [601, 3600] and probability 3/200 of a value uniform in [3601, 7200],
    computed as exact rationals on every uniform grid k/N with 20 dividing N
    (such grids give each threshold event exactly its continuous uniform
    probability, both thresholds being multiples of 1/20). -/
theorem claim1_duration_split_amended (t : ℕ) (ht : 0 < t) (u : ℕ) :
    ((durationGrid (20*t) u 1 600).card : ℚ) / ((20*t : ℕ) : ℚ)^2 = 7/10
    ∧ ((durationGrid (20*t) u 601 3600).card : ℚ) / ((20*t : ℕ) : ℚ)^2 = 57/200
    ∧ ((durationGrid (20*t) u 3601 7200).card : ℚ) / ((20*t : ℕ) : ℚ)^2 = 3/200 := by
  have htQ : (t : ℚ) ≠ 0 := by
    exact_mod_cast ht.ne'
  refine ⟨?_, ?_, ?_⟩
  · rw [durationGrid_short_card t u ht]
    push_cast
    field_simp
    ring
  · rw [durationGrid_medium_card t u ht]
    push_cast
    field_simp
    ring
  · rw [durationGrid_long_card t u ht]
    push_cast
    field_simp
    ring

/-- C1 witness: the split at the base grid (t = 1, entropy 0). -/
theorem claim1_duration_split_amended_witness :
    0 < 1
    ∧ (((durationGrid (20*1) 0 1 600).card : ℚ) / ((20*1 : ℕ) : ℚ)^2 = 7/10
       ∧ ((durationGrid (20*1) 0 601 3600).card : ℚ) / ((20*1 : ℕ) : ℚ)^2 = 57/200
       ∧ ((durationGrid (20*1) 0 3601 7200).card : ℚ) / ((20*1 : ℕ) : ℚ)^2 = 3/200) :=
  ⟨Nat.one_pos, claim1_duration_split_amended 1 Nat.one_pos 0⟩

/-- C1 counterexample: the claim asserts a 70/25/5 split, but on the exact
    grid of denominator 20 (on which both thresholds are exact) the medium
    tier [601, 3600] has probability 114/400 = 57/200 = 28.5%, not 25%, and
    the long tier [3601, 7200] has probability 6/400 = 3/200 = 1.5%, not 5%:
    0.3 * 0.95 = 0.285 and 0.3 * 0.05 = 0.015. -/
theorem claim1_counterexample :
    ((durationGrid 20 0 601 3600).card : ℚ) / 400 = 57/200
    ∧ ((durationGrid 20 0 3601 7200).card : ℚ) / 400 = 3/200
    ∧ (57/200 : ℚ) ≠ 1/4
    ∧ (3/200 : ℚ) ≠ 1/20 := by
  have h20 : (20 : ℕ) = 20*1 := by norm_num
  have hm : (durationGrid 20 0 601 3600).card = 114 := by
    rw [h20, durationGrid_medium_card 1 0 Nat.one_pos]
    norm_num
  have hl : (durationGrid 20 0 3601 7200).card = 6 := by
    rw [h20, durationGrid_long_card 1 0 Nat.one_pos]
    norm_num
  rw [hm, hl]
  norm_num

/-- Three zero-padded decimal digits, the fractional part of the
    three-decimal rendering produced by the format f-string. -/
def pad3 (m : ℕ) : String :=
  String.mk [Nat.digitChar (m / 100 % 10), Nat.digitChar (m / 10 % 10), Nat.digitChar (m % 10)]

/-- Model of generate_cost.  r1 is the 60%-zero draw, v the uniform draw in
    [0.001, 5.0], r2 the 20% integer-render draw.  The rounding of
    round(x, 3) is modelled exactly on rationals as round(1000 x)/1000, the
    rounded value being carried as its numerator m = round(1000 v); the
    test cost_val == int(cost_val) becomes m % 1000 = 0, str(int(cost_val))
    becomes the decimal rendering of m / 1000, and the three-decimal
    formatting becomes the integer part, a dot, and the three padded
    fractional digits. -/
def generate_cost (r1 r2 v : ℚ) : String :=
  if r1 < 3/5 then "0"
  else if (round ((1000 : ℚ) * v)).toNat % 1000 = 0 ∧ r2 < 1/5 then
    toString ((round ((1000 : ℚ) * v)).toNat / 1000)
  else
    toString ((round ((1000 : ℚ) * v)).toNat / 1000) ++ "."
      ++ pad3 ((round ((1000 : ℚ) * v)).toNat % 1000)

/-- Model of generate_currency: random.choices with weights
    GBP 0.95, USD 0.02, EUR 0.03 draws r uniform in [0, 1) against the
    cumulative weights 0.95, 0.97, 1.00. -/
def generate_currency (r : ℚ) : String :=
  if r < 95/100 then "GBP" else if r < 97/100 then "USD" else "EUR"

/-- Uppercase hexadecimal digit, as produced by uuid4().hex.upper(). -/
def hexUpperChar (d : ℕ) : Char :=
  if d < 10 then Nat.digitChar d else Char.ofNat (55 + d)

/-- Model of generate_reference: the 128-bit entropy n of uuid.uuid4()
    rendered as 32 zero-padded uppercase hexadecimal characters. -/
def generate_reference (n : ℕ) : String :=
  String.mk ((List.range 32).map (fun i => hexUpperChar (n / 16 ^ (31 - i) % 16)))

/-- Two zero-padded decimal digits, the rendering of the 02d format
    specifier for values below 100. -/
def pad2 (n : ℕ) : String :=
  String.mk [Nat.digitChar (n / 10 % 10), Nat.digitChar (n % 10)]

/-- Model of generate_time: three randint draws formatted HH:MM:SS. -/
def generate_time (u1 u2 u3 : ℕ) : String :=
  pad2 (randint 0 23 u1) ++ ":" ++ pad2 (randint 0 59 u2) ++ ":" ++ pad2 (randint 0 59 u3)

/-- Numeric value of a decimal digit character. -/
def digitVal (c : Char) : ℕ := c.toNat - 48

/-- Checker for a valid 24-hour HH:MM:SS time string. -/
def isValidTime (s : String) : Bool :=
  match s.data with
  | [h1, h2, c1, m1, m2, c2, s1, s2] =>
    h1.isDigit && h2.isDigit && (c1 == ':') && m1.isDigit && m2.isDigit && (c2 == ':')
      && s1.isDigit && s2.isDigit
      && decide (10 * digitVal h1 + digitVal h2 < 24)
      && decide (10 * digitVal m1 + digitVal m2 < 60)
      && decide (10 * digitVal s1 + digitVal s2 < 60)
  | _ => false

theorem digitChar_isDigit : ∀ d : ℕ, d < 10 → (Nat.digitChar d).isDigit = true := by decide

theorem digitVal_digitChar : ∀ d : ℕ, d < 10 → digitVal (Nat.digitChar d) = d := by decide

theorem hexUpperChar_spec :
    ∀ d : ℕ, d < 16 → ((hexUpperChar d).isDigit = true ∨ ('A' ≤ hexUpperChar d ∧ hexUpperChar d ≤ 'F')) := by
  decide

theorem isValidTime_generate_time (u1 u2 u3 : ℕ) :
    isValidTime (generate_time u1 u2 u3) = true := by
  have h24 : randint 0 23 u1 < 24 := by
    have := randint_le_right 0 23 u1 (by omega)
    omega
  have h60a : randint 0 59 u2 < 60 := by
    have := randint_le_right 0 59 u2 (by omega)
    omega
  have h60b : randint 0 59 u3 < 60 := by
    have := randint_le_right 0 59 u3 (by omega)
    omega
  unfold generate_time
  have hdata : (pad2 (randint 0 23 u1) ++ ":" ++ pad2 (randint 0 59 u2) ++ ":"
      ++ pad2 (randint 0 59 u3)).data
      = [Nat.digitChar (randint 0 23 u1 / 10 % 10), Nat.digitChar (randint 0 23 u1 % 10), ':',
         Nat.digitChar (randint 0 59 u2 / 10 % 10), Nat.digitChar (randint 0 59 u2 % 10), ':',
         Nat.digitChar (randint 0 59 u3 / 10 % 10), Nat.digitChar (randint 0 59 u3 % 10)] := by
    simp [String.data_append, pad2]
  unfold isValidTime
  rw [hdata]
  simp only [Bool.and_eq_true, beq_self_eq_true, decide_eq_true_eq]
  repeat' apply And.intro
  all_goals
    first
      | trivial
      | exact digitChar_isDigit _ (by omega)
      | (rw [digitVal_digitChar _ (by omega), digitVal_digitChar _ (by omega)]; omega)

/-- C6: for every generated data row, the duration field is an integer in
    [1, 7200], the currency field is one of GBP, USD, EUR, the reference
    field is a 32-character string over the alphabet 0-9 A-F, and the
    end_time field parses as a valid 24-hour time.  Quantified over every
    value of the random source. -/
theorem claim6_field_domains (r1 r2 : ℚ) (u : ℕ) (rc : ℚ) (n u1 u2 u3 : ℕ) :
    (1 ≤ generate_duration r1 r2 u ∧ generate_duration r1 r2 u ≤ 7200)
    ∧ (generate_currency rc = "GBP" ∨ generate_currency rc = "USD"
        ∨ generate_currency rc = "EUR")
    ∧ ((generate_reference n).length = 32
        ∧ ∀ c ∈ (generate_reference n).data,
            (c.isDigit = true ∨ ('A' ≤ c ∧ c ≤ 'F')))
    ∧ isValidTime (generate_time u1 u2 u3) = true := by
  refine ⟨?_, ?_, ⟨?_, ?_⟩, isValidTime_generate_time u1 u2 u3⟩
  · unfold generate_duration
    split_ifs
    · have h1 := randint_le 1 600 u
      have h2 := randint_le_right 1 600 u (by omega)
      omega
    · have h1 := randint_le 601 3600 u
      have h2 := randint_le_right 601 3600 u (by omega)
      omega
    · have h1 := randint_le 3601 7200 u
      have h2 := randint_le_right 3601 7200 u (by omega)
      omega
  · unfold generate_currency
    split_ifs
    · exact Or.inl rfl
    · exact Or.inr (Or.inl rfl)
    · exact Or.inr (Or.inr rfl)
  · simp [generate_reference, String.length]
  · intro c hc
    have hc2 : c ∈ (List.range 32).map (fun i => hexUpperChar (n / 16 ^ (31 - i) % 16)) := hc
    rw [List.mem_map] at hc2
    obtain ⟨i, _, rfl⟩ := hc2
    exact hexUpperChar_spec _ (Nat.mod_lt _ (by norm_num))

theorem round_thousand_bounds (v : ℚ) (h1 : 1/1000 ≤ v) (h2 : v ≤ 5) :
    1 ≤ (round ((1000 : ℚ) * v)).toNat ∧ (round ((1000 : ℚ) * v)).toNat ≤ 5000 := by
  have hlo : (1 : ℤ) ≤ round ((1000 : ℚ) * v) := by
    rw [round_eq]
    apply Int.le_floor.mpr
    push_cast
    linarith
  have hhi : round ((1000 : ℚ) * v) < 5001 := by
    rw [round_eq]
    apply Int.floor_lt.mpr
    push_cast
    linarith
  omega

theorem generate_cost_eq_zero_iff (r1 r2 v : ℚ) (h1 : 1/1000 ≤ v) (h2 : v ≤ 5) :
    generate_cost r1 r2 v = "0" ↔ r1 < 3/5 := by
  obtain ⟨hm1, hm2⟩ := round_thousand_bounds v h1 h2
  unfold generate_cost
  split_ifs with hz hint
  · exact iff_of_true rfl hz
  · refine iff_of_false ?_ hz
    intro heq
    obtain ⟨hmod, _⟩ := hint
    have hk1 : 1 ≤ (round ((1000 : ℚ) * v)).toNat / 1000 := by omega
    have hk5 : (round ((1000 : ℚ) * v)).toNat / 1000 ≤ 5 := by omega
    set k := (round ((1000 : ℚ) * v)).toNat / 1000 with hk
    interval_cases k <;> exact absurd heq (by decide)
  · refine iff_of_false ?_ hz
    intro heq
    have hlen := congrArg String.length heq
    rw [String.length_append, String.length_append] at hlen
    have hdot : (".").length = 1 := rfl
    have hpad : (pad3 ((round ((1000 : ℚ) * v)).toNat % 1000)).length = 3 := rfl
    have hzero : ("0").length = 1 := rfl
    omega

theorem grid_lt_06 (k : Fin 20) : ((k : ℚ) / 20 < 3/5) ↔ (k : ℕ) < 12 := by
  rw [div_lt_div_iff₀ (by norm_num : (0:ℚ) < 20) (by norm_num : (0:ℚ) < 5)]
  have : ((k : ℚ) * 5 < 3 * 20) ↔ ((k : ℕ) * 5 < 60) := by
    exact_mod_cast Iff.rfl
  rw [this]
  omega

theorem pad3_digits (m : ℕ) :
    (pad3 m).length = 3 ∧ ∀ c ∈ (pad3 m).data, c.isDigit = true := by
  constructor
  · rfl
  · intro c hc
    have hc2 : c ∈ [Nat.digitChar (m / 100 % 10), Nat.digitChar (m / 10 % 10),
        Nat.digitChar (m % 10)] := hc
    simp only [List.mem_cons, List.not_mem_nil, or_false] at hc2
    rcases hc2 with rfl | rfl | rfl <;> exact digitChar_isDigit _ (by omega)

/-- C7: every output of the cost sampler is the literal "0" (probability
    60%, exactly 12 of the 20 grid points of the exact uniform grid of
    denominator 20 for the first draw), or is derived from the uniform
    value v in [0.001, 5.0] rounded to three decimals: either a bare
    integer string for a whole rounded value (value between 1 and 5), or a
    rendering with exactly three digits after the decimal point; the
    numeric value always lies in [0, 5]. -/
theorem claim7_cost_format (r1 r2 v : ℚ) (h1 : 1/1000 ≤ v) (h2 : v ≤ 5) :
    (generate_cost r1 r2 v = "0"
      ∨ (∃ k : ℕ, 1 ≤ k ∧ k ≤ 5 ∧ generate_cost r1 r2 v = toString k)
      ∨ (∃ n : ℕ, 1 ≤ n ∧ n ≤ 5000 ∧ (0 ≤ (n : ℚ) / 1000 ∧ (n : ℚ) / 1000 ≤ 5)
          ∧ generate_cost r1 r2 v = toString (n / 1000) ++ "." ++ pad3 (n % 1000)
          ∧ (pad3 (n % 1000)).length = 3
          ∧ ∀ c ∈ (pad3 (n % 1000)).data, c.isDigit = true))
    ∧ (Finset.univ.filter
        (fun k : Fin 20 => generate_cost ((k : ℚ) / 20) r2 v = "0")).card = 12 := by
  obtain ⟨hm1, hm2⟩ := round_thousand_bounds v h1 h2
  constructor
  · unfold generate_cost
    split_ifs with hz hint
    · exact Or.inl rfl
    · obtain ⟨hmod, _⟩ := hint
      exact Or.inr (Or.inl ⟨(round ((1000 : ℚ) * v)).toNat / 1000, by omega, by omega, rfl⟩)
    · refine Or.inr (Or.inr ⟨(round ((1000 : ℚ) * v)).toNat, by omega, by omega, ⟨?_, ?_⟩,
        rfl, (pad3_digits _).1, (pad3_digits _).2⟩)
      · positivity
      · rw [div_le_iff₀ (by norm_num : (0:ℚ) < 1000)]
        have : ((round ((1000 : ℚ) * v)).toNat : ℚ) ≤ (5000 : ℕ) := by
          exact_mod_cast hm2
        push_cast at this ⊢
        linarith
  · have hcongr : (Finset.univ.filter
        (fun k : Fin 20 => generate_cost ((k : ℚ) / 20) r2 v = "0"))
        = Finset.univ.filter (fun k : Fin 20 => (k : ℕ) < 12) := by
      apply Finset.filter_congr
      intro k _
      rw [generate_cost_eq_zero_iff _ r2 v h1 h2, grid_lt_06]
    rw [hcongr, card_filter_fin_lt]
    omega

/-- C7 witness: concrete draws r1 = 1, r2 = 1, v = 1/2. -/
theorem claim7_cost_format_witness :
    ((1:ℚ)/1000 ≤ 1/2 ∧ (1/2:ℚ) ≤ 5)
    ∧ ((generate_cost 1 1 (1/2) = "0"
      ∨ (∃ k : ℕ, 1 ≤ k ∧ k ≤ 5 ∧ generate_cost 1 1 (1/2) = toString k)
      ∨ (∃ n : ℕ, 1 ≤ n ∧ n ≤ 5000 ∧ (0 ≤ (n : ℚ) / 1000 ∧ (n : ℚ) / 1000 ≤ 5)
          ∧ generate_cost 1 1 (1/2) = toString (n / 1000) ++ "." ++ pad3 (n % 1000)
          ∧ (pad3 (n % 1000)).length = 3
          ∧ ∀ c ∈ (pad3 (n % 1000)).data, c.isDigit = true))
    ∧ (Finset.univ.filter
        (fun k : Fin 20 => generate_cost ((k : ℚ) / 20) 1 (1/2) = "0")).card = 12) :=
  ⟨⟨by norm_num, by norm_num⟩, claim7_cost_format 1 1 (1/2) (by norm_num) (by norm_num)⟩

/-- Gregorian leap-year test, as implemented by Python datetime. -/
def isLeap (y : ℕ) : Bool :=
  (y % 4 == 0 && y % 100 != 0) || y % 400 == 0

def daysInYear (y : ℕ) : ℕ := if isLeap y then 366 else 365

def daysInMonth (y m : ℕ) : ℕ :=
  if m = 2 then (if isLeap y then 29 else 28)
  else if m = 4 ∨ m = 6 ∨ m = 9 ∨ m = 11 then 30 else 31

/-- Walks the list of months of year y, consuming the day offset d; returns
    the pair (day, month) of the date d days after the first day of the
    first month in the list. -/
def mdOfYearOffset (y : ℕ) : List ℕ → ℕ → ℕ × ℕ
  | [], _ => (1, 1)
  | m :: ms, d =>
    if d < daysInMonth y m then (d + 1, m) else mdOfYearOffset y ms (d - daysInMonth y m)

/-- Consumes whole years from the day offset; the fuel only bounds the
    recursion and d + 1 is always enough, each step consuming at least 365
    days.  Returns (day, month, year) of the date d days after Jan 1 of
    year y. -/
def dateOfOffsetAux : ℕ → ℕ → ℕ → ℕ × ℕ × ℕ
  | 0, y, _ => (1, 1, y)
  | fuel + 1, y, d =>
    if d < daysInYear y then
      ((mdOfYearOffset y [1,2,3,4,5,6,7,8,9,10,11,12] d).1,
       (mdOfYearOffset y [1,2,3,4,5,6,7,8,9,10,11,12] d).2, y)
    else dateOfOffsetAux fuel (y + 1) (d - daysInYear y)

/-- The date d days after Jan 1 of year y, Python's
    date(y, 1, 1) + timedelta(days=d). -/
def dateOfOffset (y d : ℕ) : ℕ × ℕ × ℕ := dateOfOffsetAux (d + 1) y d

/-- Python's (date(ey, 12, 31) - date(sy, 1, 1)).days: one less than the
    number of dates from Jan 1 of sy through Dec 31 of ey inclusive. -/
def daysBetween (sy ey : ℕ) : ℕ := (∑ y ∈ Finset.Icc sy ey, daysInYear y) - 1

/-- DD/MM/YYYY rendering of strftime, for the supported year range. -/
def formatDate (dmy : ℕ × ℕ × ℕ) : String :=
  pad2 dmy.1 ++ "/" ++ pad2 dmy.2.1 ++ "/" ++ toString dmy.2.2

/-- Model of generate_date: the randrange(days_between_dates) draw is the
    entropy u reduced modulo daysBetween, exactly the support 0 ..
    daysBetween - 1 of randrange; the drawn offset is added to Jan 1 of the
    start year and the result formatted DD/MM/YYYY. -/
def generate_date (sy ey u : ℕ) : String :=
  formatDate (dateOfOffset sy (u % daysBetween sy ey))

set_option maxRecDepth 100000 in
/-- C4: the claim says every date from Jan 1 of the start year through
    Dec 31 of the end year inclusive is a possible output; for the default
    years 2015-2024 the inclusive range spans 3653 days, the offset of
    31/12/2024 from 01/01/2015 being daysBetween 2015 2024 = 3652, yet
    random.randrange(days_between_dates) draws only offsets
    0 .. 3651, so 31/12/2024 is never produced: the code has an off-by-one
    against its evident intent (it constructs end_date as Dec 31).  The
    theorem shows the excluded offset 3652 is exactly Dec 31 2024 and that
    no draw of the random source reaches it. -/
theorem claim4_date_last_day_unreachable :
    daysBetween 2015 2024 = 3652
    ∧ (∀ u : ℕ, generate_date 2015 2024 u ≠ "31/12/2024")
    ∧ formatDate (dateOfOffset 2015 3652) = "31/12/2024" := by
  have hdb : daysBetween 2015 2024 = 3652 := by decide
  have hall : ((List.range 3652).all
      (fun j => formatDate (dateOfOffset 2015 j) != "31/12/2024")) = true := by decide
  refine ⟨hdb, ?_, by decide⟩
  intro u
  have hlt : u % daysBetween 2015 2024 < 3652 := by
    rw [hdb]
    exact Nat.mod_lt _ (by norm_num)
  have hmem : u % daysBetween 2015 2024 ∈ List.range 3652 := List.mem_range.mpr hlt
  have hne := List.all_eq_true.mp hall _ hmem
  rw [bne_iff_ne] at hne
  unfold generate_date
  exact hne

/-- The fixed header of generate_large_csv. -/
def headersFields : List String :=
  ["caller_id", "recipient", "call_date", "end_time", "duration", "cost", "reference", "currency"]

/-- QUOTE_MINIMAL test of the csv excel dialect: a field is quoted iff it
    holds the delimiter, the quote character, or a character of the line
    terminator. -/
def needsQuote (s : String) : Bool :=
  s.data.any (fun c => (c == ',') || (c == '"') || (c == '\r') || (c == '\n'))

/-- Serialization of one field by csv.writer: quoted with inner quotes
    doubled when needed, verbatim otherwise. -/
def csvField (s : String) : String :=
  if needsQuote s then "\"" ++ s.replace ("\"") ("\"\"") ++ "\"" else s

/-- The body of one csv row: fields joined by the comma delimiter. -/
def csvBody (fields : List String) : String :=
  String.intercalate (",") (fields.map csvField)

/-- One full row as written by csv.writer.writerow: body plus the default
    excel-dialect line terminator CR LF, reaching the file untranslated
    because the file is opened with newline=''. -/
def csvRow (fields : List String) : String := csvBody fields ++ "\r\n"

/-- Outcome of one run of generate_large_csv: the file contents at the
    target path (none when absent, in particular removed by cleanup),
    whether an exception escaped to the caller, whether an exception was
    raised inside the try block (and caught), and how many data rows were
    written by the loop (not tracked on the error path, where the file is
    removed whole). -/
structure GenResult where
  file : Option String
  surfaced : Bool
  errored : Bool
  rowsWritten : ℕ

/-- The generation loop, lines 105-131 of the source: iteration i writes
    row i (or raises, when failAt = some (i+1)), then every 50000
    iterations, skipping iteration zero, compares the actual file size to
    target_bytes and breaks once it is met or exceeded.  The fuel is the
    number of remaining iterations of range(num_rows_estimate); returns
    the final contents and the number of rows written, or the injected
    error. -/
def runLoopAux (rowAt : ℕ → List String) (tb : ℤ) (failAt : Option ℕ) :
    ℕ → ℕ → String → Except Unit (String × ℕ)
  | _, 0, contents => Except.ok (contents, 0)
  | i, fuel + 1, contents =>
    if failAt = some (i + 1) then Except.error ()
    else if i % 50000 = 0 ∧ 0 < i ∧ tb ≤ ((contents ++ csvRow (rowAt i)).length : ℤ) then
      Except.ok (contents ++ csvRow (rowAt i), 1)
    else
      (runLoopAux rowAt tb failAt (i + 1) fuel (contents ++ csvRow (rowAt i))).map
        (fun p => (p.1, p.2 + 1))

/-- Python's int() applied to a rational: truncation toward zero. -/
def intTrunc (q : ℚ) : ℤ := Int.tdiv q.num (q.den : ℤ)

/-- target_bytes = int(target_gb * 1024 * 1024 * 1024). -/
def targetBytes (target_gb : ℚ) : ℤ := intTrunc (target_gb * (1024 * 1024 * 1024))

/-- num_rows_estimate = target_bytes // 125, Python floor division. -/
def numRowsEstimate (target_gb : ℚ) : ℤ := Int.fdiv (targetBytes target_gb) 125

/-- Model of generate_large_csv.  Directory setup (os.makedirs) runs
    before the try block, so its failure escapes to the caller without
    touching the file; every failure inside the try block (header write or
    any data-row write) is caught by the except handler, which removes the
    partially written file and returns normally.  On success the file
    holds the header row followed by the rows written by the loop. -/
def generate_large_csv (rowAt : ℕ → List String) (target_gb : ℚ)
    (mkdirFails : Bool) (failAt : Option ℕ) : GenResult :=
  if mkdirFails then ⟨none, true, false, 0⟩
  else if failAt = some 0 then ⟨none, false, true, 0⟩
  else
    match runLoopAux rowAt (targetBytes target_gb) failAt 0
        (numRowsEstimate target_gb).toNat (csvRow headersFields) with
    | Except.ok (c, r) => ⟨some c, false, false, r⟩
    | Except.error _ => ⟨none, false, true, 0⟩

/-- The on-disk size (in characters, all output being ASCII) after the
    header and the first n data rows have been written. -/
def sizeAfter (rowAt : ℕ → List String) (n : ℕ) : ℕ :=
  (csvRow headersFields).length + ∑ j ∈ Finset.range n, (csvRow (rowAt j)).length

theorem sizeAfter_succ (rowAt : ℕ → List String) (n : ℕ) :
    sizeAfter rowAt (n + 1) = sizeAfter rowAt n + (csvRow (rowAt n)).length := by
  unfold sizeAfter
  rw [Finset.sum_range_succ]
  omega

theorem sizeAfter_mono (rowAt : ℕ → List String) {a b : ℕ} (h : a ≤ b) :
    sizeAfter rowAt a ≤ sizeAfter rowAt b := by
  unfold sizeAfter
  exact Nat.add_le_add_left (Finset.sum_le_sum_of_subset (Finset.range_subset.mpr h)) _

theorem runLoopAux_none_ok (rowAt : ℕ → List String) (tb : ℤ) :
    ∀ fuel i contents, ∃ c r, runLoopAux rowAt tb none i fuel contents = Except.ok (c, r) := by
  intro fuel
  induction fuel with
  | zero =>
    intro i contents
    exact ⟨contents, 0, rfl⟩
  | succ fuel ih =>
    intro i contents
    rw [runLoopAux, if_neg (by simp : ¬ (none : Option ℕ) = some (i+1))]
    by_cases hstop : i % 50000 = 0 ∧ 0 < i ∧ tb ≤ (((contents ++ csvRow (rowAt i)).length : ℤ))
    · rw [if_pos hstop]
      exact ⟨_, _, rfl⟩
    · rw [if_neg hstop]
      obtain ⟨c, r, hc⟩ := ih (i+1) (contents ++ csvRow (rowAt i))
      rw [hc]
      exact ⟨c, r+1, rfl⟩

theorem runLoopAux_rows_le (rowAt : ℕ → List String) (tb : ℤ) (c0 : ℕ)
    (hc : c0 % 50000 = 0) (hc0 : 0 < c0)
    (hsize : tb ≤ (sizeAfter rowAt (c0 + 1) : ℤ)) :
    ∀ fuel i contents, i ≤ c0 → contents.length = sizeAfter rowAt i →
      ∀ cc r, runLoopAux rowAt tb none i fuel contents = Except.ok (cc, r) →
        r ≤ c0 + 1 - i := by
  intro fuel
  induction fuel with
  | zero =>
    intro i contents hi hlen cc r heq
    rw [runLoopAux] at heq
    simp only [Except.ok.injEq, Prod.mk.injEq] at heq
    omega
  | succ fuel ih =>
    intro i contents hi hlen cc r heq
    rw [runLoopAux, if_neg (by simp : ¬ (none : Option ℕ) = some (i+1))] at heq
    have hlen2 : (contents ++ csvRow (rowAt i)).length = sizeAfter rowAt (i+1) := by
      rw [String.length_append, hlen, sizeAfter_succ]
    by_cases hstop : i % 50000 = 0 ∧ 0 < i ∧ tb ≤ (((contents ++ csvRow (rowAt i)).length : ℤ))
    · rw [if_pos hstop] at heq
      simp only [Except.ok.injEq, Prod.mk.injEq] at heq
      omega
    · rw [if_neg hstop] at heq
      have hne : i ≠ c0 := by
        intro he
        apply hstop
        refine ⟨by omega, by omega, ?_⟩
        rw [hlen2, he]
        exact_mod_cast hsize
      obtain ⟨c, r', hrec⟩ := runLoopAux_none_ok rowAt tb fuel (i+1) (contents ++ csvRow (rowAt i))
      rw [hrec] at heq
      simp only [Except.map, Except.ok.injEq, Prod.mk.injEq] at heq
      have hih := ih (i+1) (contents ++ csvRow (rowAt i)) (by omega) hlen2 c r' hrec
      omega

theorem fdiv125_ofNat (n : ℕ) : Int.fdiv (Int.ofNat n) 125 = Int.ofNat (n / 125) := by
  cases n with
  | zero => rfl
  | succ m => rfl

theorem fdiv125_negSucc (n : ℕ) : Int.fdiv (Int.negSucc n) 125 = Int.negSucc (n / 125) := rfl

theorem numRowsEstimate_pos_target (q : ℚ) (h : 0 < (numRowsEstimate q).toNat) :
    125 ≤ targetBytes q := by
  unfold numRowsEstimate at h
  cases htb : targetBytes q with
  | ofNat n =>
    rw [htb, fdiv125_ofNat] at h
    have hn : (Int.ofNat (n / 125)).toNat = n / 125 := rfl
    rw [hn] at h
    have h125 : 125 ≤ n := by omega
    rw [Int.ofNat_eq_natCast]
    exact_mod_cast h125
  | negSucc n =>
    rw [htb, fdiv125_negSucc] at h
    have hn : (Int.negSucc (n / 125)).toNat = 0 := rfl
    rw [hn] at h
    omega

theorem targetBytes_nonpos (q : ℚ) (h : q ≤ 0) : targetBytes q ≤ 0 := by
  unfold targetBytes intTrunc
  have hq : q * (1024 * 1024 * 1024) ≤ 0 := by
    have := mul_le_mul_of_nonneg_right h (by norm_num : (0:ℚ) ≤ 1024 * 1024 * 1024)
    simpa using this
  have hnum : (q * (1024 * 1024 * 1024)).num ≤ 0 := Rat.num_nonpos.mpr hq
  cases hn : (q * (1024 * 1024 * 1024)).num with
  | ofNat n =>
    have hn0 : n = 0 := by
      rw [hn, Int.ofNat_eq_natCast] at hnum
      omega
    rw [hn0]
    have hz : Int.tdiv (Int.ofNat 0) (((q * (1024 * 1024 * 1024)).den : ℕ) : ℤ)
        = Int.ofNat (0 / (q * (1024 * 1024 * 1024)).den) := rfl
    rw [hz, Nat.zero_div]
    exact le_refl 0
  | negSucc n =>
    have ht : Int.tdiv (Int.negSucc n) (((q * (1024 * 1024 * 1024)).den : ℕ) : ℤ)
        = -Int.ofNat (Nat.succ n / (q * (1024 * 1024 * 1024)).den) := rfl
    rw [ht]
    exact neg_nonpos.mpr (Int.ofNat_nonneg _)

theorem fdiv125_nonpos (t : ℤ) (h : t ≤ 0) : Int.fdiv t 125 ≤ 0 := by
  cases t with
  | ofNat n =>
    have hn0 : n = 0 := by
      rw [Int.ofNat_eq_natCast] at h
      omega
    rw [hn0]
    rfl
  | negSucc n =>
    rw [fdiv125_negSucc, Int.negSucc_eq]
    omega

/-- C9: for a non-positive target size the estimated row count
    int(target_gb * 2^30) // 125 is non-positive, the loop runs zero
    iterations, and the run completes normally with a file holding only
    the header row. -/
theorem claim9_nonpositive_target (q : ℚ) (hq : q ≤ 0) (rowAt : ℕ → List String) :
    numRowsEstimate q ≤ 0
    ∧ generate_large_csv rowAt q false none
        = ⟨some (csvRow headersFields), false, false, 0⟩ := by
  have hest : numRowsEstimate q ≤ 0 := fdiv125_nonpos _ (targetBytes_nonpos q hq)
  refine ⟨hest, ?_⟩
  have h0 : (numRowsEstimate q).toNat = 0 := Int.toNat_of_nonpos hest
  unfold generate_large_csv
  rw [if_neg (by simp), if_neg (by simp : ¬ (none : Option ℕ) = some 0), h0]
  rfl

/-- C9 witness: target size -1 GB. -/
theorem claim9_nonpositive_target_witness :
    ((-1 : ℚ) ≤ 0)
    ∧ (numRowsEstimate (-1) ≤ 0
       ∧ generate_large_csv (fun _ => []) (-1) false none
           = ⟨some (csvRow headersFields), false, false, 0⟩) :=
  ⟨by norm_num, claim9_nonpositive_target (-1) (by norm_num) (fun _ => [])⟩

/-- C2: in a failure-free run, whenever the file size meets or exceeds
    target_bytes after some number m of data rows, the loop writes at most
    50000 further rows: the actual size is polled after every iteration i
    with i % 50000 = 0 and i > 0 and the loop breaks at the first poll at
    which the size has reached the target, so the overshoot past the first
    meeting point is bounded by one check interval. -/
theorem claim2_bounded_overshoot (rowAt : ℕ → List String) (target_gb : ℚ) (m : ℕ)
    (hm : targetBytes target_gb ≤ (sizeAfter rowAt m : ℤ)) :
    (generate_large_csv rowAt target_gb false none).rowsWritten ≤ m + 50000 := by
  obtain ⟨c, r, hrun⟩ := runLoopAux_none_ok rowAt (targetBytes target_gb)
      (numRowsEstimate target_gb).toNat 0 (csvRow headersFields)
  have hres : generate_large_csv rowAt target_gb false none
      = ⟨some c, false, false, r⟩ := by
    unfold generate_large_csv
    rw [if_neg (by simp), if_neg (by simp : ¬ (none : Option ℕ) = some 0), hrun]
  rw [hres]
  show r ≤ m + 50000
  by_cases hest : (numRowsEstimate target_gb).toNat = 0
  · rw [hest, runLoopAux] at hrun
    simp only [Except.ok.injEq, Prod.mk.injEq] at hrun
    omega
  · have h125 : 125 ≤ targetBytes target_gb := numRowsEstimate_pos_target _ (by omega)
    have hhdr : (csvRow headersFields).length = 73 := by decide
    have hm1 : 1 ≤ m := by
      by_contra h0
      have hm0 : m = 0 := by omega
      have hs0 : sizeAfter rowAt 0 = 73 := by
        simp [sizeAfter, hhdr]
      rw [hm0, hs0] at hm
      omega
    have hc : (50000 * ((m + 49999) / 50000)) % 50000 = 0 := by omega
    have hc0 : 0 < 50000 * ((m + 49999) / 50000) := by omega
    have hmc : m ≤ 50000 * ((m + 49999) / 50000) := by omega
    have hcm : 50000 * ((m + 49999) / 50000) ≤ m + 49999 := by omega
    have hsize : targetBytes target_gb
        ≤ (sizeAfter rowAt (50000 * ((m + 49999) / 50000) + 1) : ℤ) := by
      refine le_trans hm ?_
      exact_mod_cast sizeAfter_mono rowAt (by omega)
    have hbound := runLoopAux_rows_le rowAt (targetBytes target_gb)
        (50000 * ((m + 49999) / 50000)) hc hc0 hsize
        (numRowsEstimate target_gb).toNat 0 (csvRow headersFields) (by omega)
        (by simp [sizeAfter]) c r hrun
    omega

/-- Shared concrete instance: a target of 125/2^30 GB is exactly 125 bytes,
    and its estimated row count is one row. -/
theorem targetBytes_small :
    targetBytes (125/1073741824) = 125 ∧ numRowsEstimate (125/1073741824) = 1 := by
  have hq : (125/1073741824 : ℚ) * (1024 * 1024 * 1024) = 125 := by norm_num
  have htb : targetBytes (125/1073741824) = 125 := by
    unfold targetBytes intTrunc
    rw [hq]
    norm_num
  refine ⟨htb, ?_⟩
  unfold numRowsEstimate
  rw [htb]
  decide

/-- C2 witness: a 125-byte target with one 66-character row field, so the
    size meets the target after m = 1 rows. -/
theorem claim2_bounded_overshoot_witness :
    (targetBytes (125/1073741824)
        ≤ (sizeAfter (fun _ => ["000000000000000000000000000000000000000000000000000000000000000000"]) 1 : ℤ))
    ∧ (generate_large_csv
        (fun _ => ["000000000000000000000000000000000000000000000000000000000000000000"])
        (125/1073741824) false none).rowsWritten ≤ 1 + 50000 := by
  have hm : targetBytes (125/1073741824)
      ≤ (sizeAfter (fun _ => ["000000000000000000000000000000000000000000000000000000000000000000"]) 1 : ℤ) := by
    rw [targetBytes_small.1]
    decide
  exact ⟨hm, claim2_bounded_overshoot
    (fun _ => ["000000000000000000000000000000000000000000000000000000000000000000"])
    (125/1073741824) 1 hm⟩

/-- C10: generate_large_csv propagates no exception from inside the try
    block: whatever failure is injected into the writing phase, the
    function returns normally; only a failure of the directory setup,
    which runs before the try block, escapes to the caller, and it does so
    before any file is created. -/
theorem claim10_no_propagation (rowAt : ℕ → List String) (q : ℚ) (failAt : Option ℕ) :
    (generate_large_csv rowAt q false failAt).surfaced = false
    ∧ (generate_large_csv rowAt q true failAt).surfaced = true
    ∧ (generate_large_csv rowAt q true failAt).file = none := by
  refine ⟨?_, rfl, rfl⟩
  unfold generate_large_csv
  rw [if_neg (by simp)]
  by_cases h0 : failAt = some 0
  · rw [if_pos h0]
  · rw [if_neg h0]
    rcases hrun : runLoopAux rowAt (targetBytes q) failAt 0
        (numRowsEstimate q).toNat (csvRow headersFields) with e | p
    · rfl
    · obtain ⟨c, r⟩ := p
      rfl

theorem generate_large_csv_errored (rowAt : ℕ → List String) (q : ℚ) (failAt : Option ℕ)
    (herr : (generate_large_csv rowAt q false failAt).errored = true) :
    generate_large_csv rowAt q false failAt = ⟨none, false, true, 0⟩ := by
  unfold generate_large_csv at herr ⊢
  rw [if_neg (by simp)] at herr ⊢
  by_cases h0 : failAt = some 0
  · rw [if_pos h0]
  · rw [if_neg h0] at herr ⊢
    rcases hrun : runLoopAux rowAt (targetBytes q) failAt 0
        (numRowsEstimate q).toNat (csvRow headersFields) with e | p
    · rfl
    · obtain ⟨c, r⟩ := p
      rw [hrun] at herr
      simp at herr

/-- C5 (amended): whenever an I/O failure strikes inside the try block
    during generation or writing, the partially-written file is removed,
    so no file remains at the target path; the error is reported by a
    printed message but is not re-raised, so generate_large_csv returns
    normally to its caller. -/
theorem claim5_cleanup_amended (rowAt : ℕ → List String) (q : ℚ) (failAt : Option ℕ)
    (herr : (generate_large_csv rowAt q false failAt).errored = true) :
    (generate_large_csv rowAt q false failAt).file = none
    ∧ (generate_large_csv rowAt q false failAt).surfaced = false := by
  rw [generate_large_csv_errored rowAt q failAt herr]
  exact ⟨rfl, rfl⟩

/-- C5 counterexample: a concrete run (125-byte target, failure injected
    at the first data-row write) in which an I/O error does occur during
    writing; the file is indeed removed, but no error reaches the caller,
    refuting the claim that the error is surfaced to the caller of
    generate_large_csv. -/
theorem claim5_counterexample :
    (generate_large_csv (fun _ => ["x"]) (125/1073741824) false (some 1)).errored = true
    ∧ (generate_large_csv (fun _ => ["x"]) (125/1073741824) false (some 1)).file = none
    ∧ (generate_large_csv (fun _ => ["x"]) (125/1073741824) false (some 1)).surfaced = false := by
  have hres : generate_large_csv (fun _ => ["x"]) (125/1073741824) false (some 1)
      = ⟨none, false, true, 0⟩ := by
    unfold generate_large_csv
    rw [if_neg (by simp), if_neg (by simp : ¬ (some 1 : Option ℕ) = some 0),
        targetBytes_small.1, targetBytes_small.2]
    rfl
  rw [hres]
  exact ⟨rfl, rfl, rfl⟩

/-- C5 witness: the amended theorem applied to the same concrete failing
    run, with a different row so the witness input is its own. -/
theorem claim5_cleanup_amended_witness :
    (generate_large_csv (fun _ => ["y"]) (125/1073741824) false (some 1)).errored = true
    ∧ ((generate_large_csv (fun _ => ["y"]) (125/1073741824) false (some 1)).file = none
       ∧ (generate_large_csv (fun _ => ["y"]) (125/1073741824) false (some 1)).surfaced = false) := by
  have herr : (generate_large_csv (fun _ => ["y"]) (125/1073741824) false (some 1)).errored = true := by
    have hres : generate_large_csv (fun _ => ["y"]) (125/1073741824) false (some 1)
        = ⟨none, false, true, 0⟩ := by
      unfold generate_large_csv
      rw [if_neg (by simp), if_neg (by simp : ¬ (some 1 : Option ℕ) = some 0),
          targetBytes_small.1, targetBytes_small.2]
      rfl
    rw [hres]
  exact ⟨herr, claim5_cleanup_amended (fun _ => ["y"]) (125/1073741824) (some 1) herr⟩

/-- C3 counterexample: the header row as actually serialized carries the
    two-character terminator CR LF of the csv excel dialect (written
    verbatim because the file is opened with newline=''), not a lone
    newline. -/
theorem claim3_counterexample :
    csvRow headersFields = csvBody headersFields ++ "\r\n"
    ∧ csvRow headersFields ≠ csvBody headersFields ++ "\n" := by
  refine ⟨rfl, ?_⟩
  decide

/-- C3 (amended): every row written to the output file, the header row and
    every data row alike, is terminated by the two-character sequence
    CR LF: the last character is a newline and the character before it is
    a carriage return. -/
theorem claim3_row_terminator_amended (fields : List String) :
    (csvRow fields).data.getLast? = some '\n'
    ∧ (csvRow fields).data.dropLast.getLast? = some '\r'
    ∧ csvRow fields = csvBody fields ++ "\r\n" := by
  have hdata : (csvRow fields).data = ((csvBody fields).data ++ ['\r']) ++ ['\n'] := by
    show (csvBody fields ++ "\r\n").data = _
    rw [String.data_append]
    simp
  refine ⟨?_, ?_, rfl⟩
  · rw [hdata, List.getLast?_concat]
  · rw [hdata, List.dropLast_concat, List.getLast?_concat]

/-- The first line of a character stream: everything before the first CR
    or LF, the line notion under which both a CRLF file and an LF file
    are read. -/
def firstLine (cs : List Char) : List Char :=
  cs.takeWhile (fun c => !(c == '\r') && !(c == '\n'))

theorem firstLine_append (a b : List Char)
    (ha : ∀ c ∈ a, (!(c == '\r') && !(c == '\n')) = true) :
    firstLine (a ++ '\r' :: b) = a := by
  induction a with
  | nil => simp [firstLine, List.takeWhile]
  | cons x xs ih =>
    have hx := ha x (by simp)
    have hxs : ∀ c ∈ xs, (!(c == '\r') && !(c == '\n')) = true := by
      intro c hc
      exact ha c (by simp [hc])
    simp only [List.cons_append, firstLine, List.takeWhile_cons, hx, if_true]
    exact congrArg (x :: ·) (ih hxs)

theorem runLoopAux_ok_data (rowAt : ℕ → List String) (tb : ℤ) (failAt : Option ℕ) :
    ∀ fuel i contents cc r, runLoopAux rowAt tb failAt i fuel contents = Except.ok (cc, r) →
      cc.data = contents.data
        ++ ((List.range r).map (fun j => (csvRow (rowAt (i + j))).data)).flatten := by
  intro fuel
  induction fuel with
  | zero =>
    intro i contents cc r heq
    rw [runLoopAux] at heq
    simp only [Except.ok.injEq, Prod.mk.injEq] at heq
    obtain ⟨h1, h2⟩ := heq
    rw [← h1, ← h2]
    simp
  | succ fuel ih =>
    intro i contents cc r heq
    rw [runLoopAux] at heq
    by_cases hfail : failAt = some (i+1)
    · rw [if_pos hfail] at heq
      exact absurd heq (by simp)
    · rw [if_neg hfail] at heq
      by_cases hstop : i % 50000 = 0 ∧ 0 < i ∧ tb ≤ (((contents ++ csvRow (rowAt i)).length : ℤ))
      · rw [if_pos hstop] at heq
        simp only [Except.ok.injEq, Prod.mk.injEq] at heq
        obtain ⟨h1, h2⟩ := heq
        rw [← h1, ← h2]
        have hr1 : List.range 1 = [0] := rfl
        rw [hr1]
        simp
      · rw [if_neg hstop] at heq
        rcases hrec : runLoopAux rowAt tb failAt (i+1) fuel (contents ++ csvRow (rowAt i))
          with e | p
        · rw [hrec] at heq
          exact absurd heq (by simp [Except.map])
        · obtain ⟨c2, r2⟩ := p
          rw [hrec] at heq
          simp only [Except.map, Except.ok.injEq, Prod.mk.injEq] at heq
          obtain ⟨h1, h2⟩ := heq
          have hih := ih (i+1) (contents ++ csvRow (rowAt i)) c2 r2 hrec
          have hmap : List.map ((fun j => (csvRow (rowAt (i + j))).data) ∘ Nat.succ)
                (List.range r2)
              = List.map (fun j => (csvRow (rowAt (i + 1 + j))).data) (List.range r2) := by
            apply List.map_congr_left
            intro j _
            have hj : i + 1 + j = i + (j + 1) := by omega
            simp [Function.comp, hj]
          rw [← h1, ← h2, hih, String.data_append, List.range_succ_eq_map]
          simp only [List.map_cons, List.flatten_cons, List.map_map]
          rw [hmap]
          simp [List.append_assoc]

/-- C8: whenever a run of generate_large_csv leaves a file, its first line
    is exactly the fixed 8-column header, and the whole file is that
    header row, terminated by CR LF, followed by the serializations of the
    data rows written by the loop: the header is written exactly once,
    before any data row. -/
theorem claim8_header_first_line (rowAt : ℕ → List String) (q : ℚ) (failAt : Option ℕ)
    (s : String)
    (hfile : (generate_large_csv rowAt q false failAt).file = some s) :
    firstLine s.data
      = ("caller_id,recipient,call_date,end_time,duration,cost,reference,currency").data
    ∧ ∃ r : ℕ, s.data
        = ("caller_id,recipient,call_date,end_time,duration,cost,reference,currency").data
          ++ '\r' :: '\n'
          :: ((List.range r).map (fun j => (csvRow (rowAt j)).data)).flatten := by
  unfold generate_large_csv at hfile
  rw [if_neg (by simp)] at hfile
  by_cases h0 : failAt = some 0
  · rw [if_pos h0] at hfile
    exact absurd hfile (by simp)
  · rw [if_neg h0] at hfile
    rcases hrun : runLoopAux rowAt (targetBytes q) failAt 0
        (numRowsEstimate q).toNat (csvRow headersFields) with e | p
    · rw [hrun] at hfile
      exact absurd hfile (by simp)
    · obtain ⟨c, r⟩ := p
      rw [hrun] at hfile
      simp only [Option.some.injEq] at hfile
      have hdata := runLoopAux_ok_data rowAt (targetBytes q) failAt
          (numRowsEstimate q).toNat 0 (csvRow headersFields) c r hrun
      have hzero : (fun j => (csvRow (rowAt (0 + j))).data)
          = (fun j => (csvRow (rowAt j)).data) := by
        funext j
        rw [Nat.zero_add]
      rw [hzero] at hdata
      have hhdr : (csvRow headersFields).data
          = ("caller_id,recipient,call_date,end_time,duration,cost,reference,currency").data
            ++ '\r' :: '\n' :: [] := by decide
      have hs : s.data
          = ("caller_id,recipient,call_date,end_time,duration,cost,reference,currency").data
            ++ '\r' :: '\n'
            :: ((List.range r).map (fun j => (csvRow (rowAt j)).data)).flatten := by
        rw [← hfile, hdata, hhdr]
        simp
      refine ⟨?_, r, hs⟩
      rw [hs]
      exact firstLine_append _ _ (by decide)

/-- C8 witness: a 125-byte-target run that writes one data row. -/
theorem claim8_header_first_line_witness :
    ((generate_large_csv (fun _ => ["x"]) (125/1073741824) false none).file
        = some (csvRow headersFields ++ csvRow ["x"]))
    ∧ (firstLine (csvRow headersFields ++ csvRow ["x"]).data
        = ("caller_id,recipient,call_date,end_time,duration,cost,reference,currency").data
       ∧ ∃ r : ℕ, (csvRow headersFields ++ csvRow ["x"]).data
          = ("caller_id,recipient,call_date,end_time,duration,cost,reference,currency").data
            ++ '\r' :: '\n'
            :: ((List.range r).map (fun j => (csvRow ((fun _ => ["x"]) j)).data)).flatten) := by
  have hfile : (generate_large_csv (fun _ => ["x"]) (125/1073741824) false none).file
      = some (csvRow headersFields ++ csvRow ["x"]) := by
    unfold generate_large_csv
    rw [if_neg (by simp), if_neg (by simp : ¬ (none : Option ℕ) = some 0),
        targetBytes_small.1, targetBytes_small.2]
    rfl
  exact ⟨hfile, claim8_header_first_line (fun _ => ["x"]) (125/1073741824) none
    (csvRow headersFields ++ csvRow ["x"]) hfile⟩
